import Mathlib

set_option maxRecDepth 100000

/-!
Shallow embedding of the xivtool repository's core (the xiv crate):
PackId path parsing and formatting (src/xiv/src/packid.rs), the .index2
loader (src/xiv/src/index2.rs), the block codec (src/xiv/src/dat.rs) and
the Excel EXH/EXD reader (src/xiv/src/ex.rs).

Rust strings and byte buffers are modelled as `List Nat` (UTF-8 byte
values); machine integers are `Nat` with explicit `% 2^w` where the source
can overflow.  Fallible code returns `Except XivErr` or `Option`.
-/

/-- Error kinds, mirroring the variants of `XivError` (src/xiv/src/error.rs);
payloads (io / binrw sources, message strings) are dropped. -/
inductive XivErr where
  | packIdRepoFile
  | packIdInnerPath
  | packIdCategory
  | packIdExpansion
  | packIdPatch
  | index2Seek
  | index2Header
  | index2Entry
  | datSeek
  | datFileHeader
  | datBlockHeader
  | datBlockDecoding
  | exh
  | exhNotFound
  | exdNotFound
  | exdSeek
  | exdFileHeader
  | exdRowHeader
  | exdSubRowHeader
  | exdDeserialization
  | ioErr
  deriving DecidableEq, Repr

deriving instance DecidableEq for Except

/-- Bytes of a Rust string literal (ASCII/UTF-8 code units). -/
def strBytes (s : String) : List Nat := s.data.map Char.toNat

/-- Little-endian u32 at position `pos`; `none` models a failed read. -/
def readU32LE (data : List Nat) (pos : Nat) : Option Nat :=
  match data[pos]?, data[pos+1]?, data[pos+2]?, data[pos+3]? with
  | some b0, some b1, some b2, some b3 => some (b0 + 256 * b1 + 65536 * b2 + 16777216 * b3)
  | _, _, _, _ => none

/-- Big-endian u32 at position `pos`. -/
def readU32BE (data : List Nat) (pos : Nat) : Option Nat :=
  match data[pos]?, data[pos+1]?, data[pos+2]?, data[pos+3]? with
  | some b0, some b1, some b2, some b3 => some (16777216 * b0 + 65536 * b1 + 256 * b2 + b3)
  | _, _, _, _ => none

/-- Big-endian u16 at position `pos`. -/
def readU16BE (data : List Nat) (pos : Nat) : Option Nat :=
  match data[pos]?, data[pos+1]? with
  | some b0, some b1 => some (256 * b0 + b1)
  | _, _ => none

/-- `(category, expansion, patch)` triple (src/xiv/src/packid.rs, struct PackId);
each field is a u8. -/
structure PackId where
  category : Nat
  expansion : Nat
  patch : Nat
  deriving DecidableEq, Repr

/-- The CATEGORY_NAME_TO_ID table from src/xiv/src/packid.rs. -/
def categoryList : List (List Nat × Nat) :=
  [ (strBytes "common", 0x00)
  , (strBytes "bgcommon", 0x01)
  , (strBytes "bg", 0x02)
  , (strBytes "cut", 0x03)
  , (strBytes "chara", 0x04)
  , (strBytes "shader", 0x05)
  , (strBytes "ui", 0x06)
  , (strBytes "sound", 0x07)
  , (strBytes "vfx", 0x08)
  , (strBytes "ui_script", 0x09)
  , (strBytes "exd", 0x0a)
  , (strBytes "game_script", 0x0b)
  , (strBytes "music", 0x0c)
  , (strBytes "_sqpack_test", 0x12)
  , (strBytes "_debug", 0x13) ]

def lookupCategory (s : List Nat) : Option Nat :=
  categoryList.lookup s

/-- Rust `str::split('/')`: byte 47 is the slash. An empty input yields one
empty segment, a trailing slash yields a trailing empty segment. -/
def splitSlash : List Nat → List (List Nat)
  | [] => [[]]
  | b :: rest =>
    if b = 47 then [] :: splitSlash rest
    else
      match splitSlash rest with
      | s :: ss => (b :: s) :: ss
      | [] => [[b]]

/-- Lowercase hex digit test, byte form of the regex class [0-9a-f]. -/
def isHexLowerByte (b : Nat) : Bool :=
  (48 ≤ b && b ≤ 57) || (97 ≤ b && b ≤ 102)

/-- Numeric value of a lowercase hex digit byte. -/
def hexByteVal (b : Nat) : Nat :=
  if b ≤ 57 then b - 48 else b - 87

/-- EXPANSION_REGEX from packid.rs: matches a whole segment against
ex([1-9]) and returns the captured digit parsed in base 10. -/
def expMatch : List Nat → Option Nat
  | [101, 120, d] => if 49 ≤ d && d ≤ 57 then some (d - 48) else none
  | _ => none

/-- PATCH_REGEX from packid.rs: an unanchored-tail match of
([0-9a-f]\x7b2\x7d)_ at the start of a segment, returning the captured two
hex digits parsed in base 16. -/
def patchMatch : List Nat → Option Nat
  | a :: b :: 95 :: _ =>
    if isHexLowerByte a && isHexLowerByte b then some (16 * hexByteVal a + hexByteVal b)
    else none
  | _ => none

/-- `PackId::from_inner_path` (packid.rs lines 54-73).  Each `next_node()?`
turns a missing segment into the PackIdInnerPath error before any regex is
consulted. -/
def PackId.fromInnerPath (path : List Nat) : Except XivErr PackId :=
  let nodes := splitSlash path
  match nodes[0]? with
  | none => .error .packIdInnerPath
  | some n0 =>
    match lookupCategory n0 with
    | none => .error .packIdCategory
    | some cat =>
      match nodes[1]? with
      | none => .error .packIdInnerPath
      | some n1 =>
        match expMatch n1 with
        | none => .ok ⟨cat, 0, 0⟩
        | some expn =>
          match nodes[2]? with
          | none => .error .packIdInnerPath
          | some n2 =>
            match patchMatch n2 with
            | none => .ok ⟨cat, expn, 0⟩
            | some patch => .ok ⟨cat, expn, patch⟩

/-- One digit of Rust `format!("\x7b:02x\x7d", _)`: 0-9 then a-f, lowercase. -/
def hexDigByte (n : Nat) : Nat :=
  if n < 10 then 48 + n else 87 + n

/-- Two-digit lowercase hex of a u8, as produced by `\x7b:02x\x7d`. -/
def hex2 (n : Nat) : List Nat :=
  [hexDigByte (n / 16), hexDigByte (n % 16)]

/-- File-name component of `PackId::into_index2_path` (packid.rs lines
89-109): the stem `<cat><exp><patch>` has no dot, so `set_extension`
appends `.win32.index2`. -/
def PackId.index2FileName (q : PackId) : List Nat :=
  hex2 q.category ++ hex2 q.expansion ++ hex2 q.patch ++ strBytes ".win32.index2"

/-- Tail alternation (dat\d|index|index2)$ of SQPACK_NAME_REGEX. -/
def extMatch : List Nat → Bool
  | [100, 97, 116, d] => 48 ≤ d && d ≤ 57
  | [105, 110, 100, 101, 120] => true
  | [105, 110, 100, 101, 120, 50] => true
  | _ => false

/-- The `.win32.` middle of SQPACK_NAME_REGEX; the two dots are unescaped
in the source regex, hence match any byte. -/
def sqpackSuffixMatch : List Nat → Bool
  | _d1 :: 119 :: 105 :: 110 :: 51 :: 50 :: _d2 :: rest => extMatch rest
  | _ => false

/-- `PackId::from_repo_path` on a bare file name (packid.rs lines 75-87):
SQPACK_NAME_REGEX anchored match, then base-16 parses of the three
2-digit captures (which cannot fail for two hex digits). -/
def PackId.fromPackFilename (name : List Nat) : Except XivErr PackId :=
  match name with
  | a :: b :: c :: d :: e :: f :: rest =>
    if isHexLowerByte a && isHexLowerByte b && isHexLowerByte c && isHexLowerByte d
        && isHexLowerByte e && isHexLowerByte f && sqpackSuffixMatch rest then
      .ok ⟨16 * hexByteVal a + hexByteVal b,
           16 * hexByteVal c + hexByteVal d,
           16 * hexByteVal e + hexByteVal f⟩
    else
      .error .packIdRepoFile
  | _ => .error .packIdRepoFile

/-- An index entry (src/xiv/src/index2.rs, struct IndexEntry):
`datnum` is a u8, `offset` a u64. -/
structure IndexEntry where
  datnum : Nat
  offset : Nat
  deriving DecidableEq, Repr

/-- The location decode inside the `Index2::load` loop (index2.rs lines
53-59): the shift `(location & 0xFFFFFFF8) << 3` is performed on a u32, so
its result wraps modulo 2^32 before the cast to u64. -/
def decodeLocation (location : Nat) : IndexEntry :=
  { datnum := (location &&& 0x00000007) >>> 1
  , offset := ((location &&& 0xFFFFFFF8) <<< 3) % 4294967296 }

/-- One step of bit-reflected CRC-32 (polynomial 0xEDB88320). -/
def crcStep (c : Nat) : Nat :=
  if c % 2 = 1 then (c / 2) ^^^ 0xEDB88320 else c / 2

/-- Fold one byte into the CRC state (8 reflected steps). -/
def crcByte (c b : Nat) : Nat :=
  crcStep^[8] (c ^^^ b)

/-- CRC-32/JAMCRC of a byte string: init 0xFFFFFFFF, reflected, no final
xor.  Models the `crc` crate constant used by `Index2::find`. -/
def jamcrc (bytes : List Nat) : Nat :=
  bytes.foldl crcByte 0xFFFFFFFF

/-- The in-memory index: an insertion list standing for the
`IntMap<u32, IndexEntry>`; a later insert for the same hash shadows an
earlier one, which the cons-front representation preserves for lookup. -/
abbrev Index2 := List (Nat × IndexEntry)

/-- The entry-reading loop of `Index2::load` (index2.rs lines 47-61):
`count` records of `(hash: u32 LE, location: u32 LE)` inserted in order. -/
def readIndexEntries (bytes : List Nat) (pos : Nat) : Nat → Index2 → Except XivErr Index2
  | 0, acc => .ok acc
  | k + 1, acc =>
    match readU32LE bytes pos with
    | none => .error .index2Entry
    | some hash =>
      match readU32LE bytes (pos + 4) with
      | none => .error .index2Entry
      | some location =>
        readIndexEntries bytes (pos + 8) k ((hash, decodeLocation location) :: acc)

/-- `Index2::load` (index2.rs lines 25-64) over the raw file bytes: magic
check, header offset at 0x0C (LE), entries offset and total byte count at
header_offset + 8, then `total / 8` entry records. -/
def Index2.load (bytes : List Nat) : Except XivErr Index2 :=
  if bytes.take 8 ≠ strBytes "SqPack" ++ [0, 0] then .error .index2Header
  else
    match readU32LE bytes 0x0C with
    | none => .error .index2Header
    | some headerOffset =>
      match readU32LE bytes (headerOffset + 8) with
      | none => .error .index2Header
      | some entriesOffset =>
        match readU32LE bytes (headerOffset + 12) with
        | none => .error .index2Header
        | some entriesTotal =>
          readIndexEntries bytes entriesOffset (entriesTotal / 8) []

/-- `Index2::find` (index2.rs lines 66-71): hash the path bytes with
JAMCRC and look the hash up in the map. -/
def Index2.find (idx : Index2) (path : List Nat) : Option IndexEntry :=
  List.lookup (jamcrc path) idx

/-- Final stream position of `read_block` (src/xiv/src/dat.rs lines
18-50), for a block whose 16-byte header starts at `pos` inside `data`.
The header is little-endian with magic 0x00000010; the payload length is
`size_compressed` when that is below the 32000 threshold (deflate path,
whose decoder consumes its whole `take`) and `size_uncompressed`
otherwise; `io::copy` through `Read::take` consumes at most the bytes
available.  The trailing seek always skips
`128 - (16 + read_size) % 128` bytes. -/
def readBlockFinalPos (data : List Nat) (pos : Nat) : Except XivErr Nat :=
  match readU32LE data pos, readU32LE data (pos + 4),
      readU32LE data (pos + 8), readU32LE data (pos + 12) with
  | some magic, some _unk0, some sizeCompressed, some sizeUncompressed =>
    if magic ≠ 0x10 then .error .datBlockHeader
    else
      let readSize := if sizeCompressed < 32000 then sizeCompressed else sizeUncompressed
      let consumed := min readSize (data.length - (pos + 16))
      let padding := 128 - (16 + readSize) % 128
      .ok (pos + 16 + consumed + padding)
  | _, _, _, _ => .error .datBlockHeader

/-- The PackedBool0..PackedBool7 arms of `ExdRowReader::deserialize_any`
(src/xiv/src/ex.rs lines 355-362): the mask applied for PackedBoolK is the
literal written in the source for that arm (1, 2, 3, 4, 5, 6, 7, 8). -/
def packedBoolDecode (k : Nat) (byte : Nat) : Bool :=
  match k with
  | 0 => byte &&& 1 ≠ 0
  | 1 => byte &&& 2 ≠ 0
  | 2 => byte &&& 3 ≠ 0
  | 3 => byte &&& 4 ≠ 0
  | 4 => byte &&& 5 ≠ 0
  | 5 => byte &&& 6 ≠ 0
  | 6 => byte &&& 7 ≠ 0
  | _ => byte &&& 8 ≠ 0

/-- Sheet variant tag (src/xiv/src/ex.rs, enum ExVariant). -/
inductive ExVariant where
  | normal
  | subRows
  deriving DecidableEq, Repr

/-- The EXH fields the page reader consults (src/xiv/src/ex.rs, struct
Exh).  `dataOffset` is the u16 `data_offset` field, `rowCount` the u32
`row_count`; `columns` keeps the `(value-type tag, offset)` pairs. -/
structure Exh where
  dataOffset : Nat
  variant : ExVariant
  rowCount : Nat
  columns : List (Nat × Nat)
  deriving DecidableEq, Repr

/-- A row pointer from the EXD header (src/xiv/src/ex.rs, struct
ExdRowPtr): `(id: u32 BE, offset: u32 BE)`. -/
structure ExdRowPtr where
  id : Nat
  offset : Nat
  deriving DecidableEq, Repr

/-- A yielded row, modelled as the arguments the source hands to
`ExdRowReader::new` for the generic `T::deserialize` (ex.rs lines
516-522): the pointer's id, the optional sub-id, and the cell-region base
position in the EXD bytes. -/
structure RowDesc where
  id : Nat
  subid : Option Nat
  cellBase : Nat
  deriving DecidableEq, Repr

/-- The fixed inputs of one `ExdPageReader`: the shared schema and the
outcome of `exd_fileptr.read_plain()`, which is the same on every call
(same file, same offset), so the source's lazy caching is unobservable. -/
structure ExdConfig where
  exh : Exh
  exdData : Except XivErr (List Nat)

/-- `row_index`, `subrow_index` (u16), `subrow_count` (u16) and `done`
from struct ExdPageReader (ex.rs lines 410-420). -/
structure PageState where
  rowIndex : Nat
  subrowIndex : Nat
  subrowCount : Nat
  done : Bool
  deriving DecidableEq, Repr

/-- `ExdPageReader::new` starts with all counters zero (ex.rs 426-438). -/
def PageState.init : PageState := ⟨0, 0, 0, false⟩

/-- Row-pointer array parse: `count` records of 8 bytes each from `pos`. -/
def parseExdRows (data : List Nat) : Nat → Nat → Option (List ExdRowPtr)
  | _, 0 => some []
  | pos, k + 1 =>
    match readU32BE data pos, readU32BE data (pos + 4) with
    | some i, some off =>
      match parseExdRows data (pos + 8) k with
      | some rest => some (⟨i, off⟩ :: rest)
      | none => none
    | _, _ => none

/-- The `ExdHeader` binrw parse (ex.rs lines 242-255): big-endian magic
"EXDF", u16 version, u16 unk, u32 `index_size` at byte 8, five more u32
fields (EOF on any of them fails the parse, hence the 32-byte floor), then
`index_size / 8` row pointers starting at byte 32. -/
def parseExdHeader (data : List Nat) : Except XivErr (List ExdRowPtr) :=
  if data.take 4 ≠ strBytes "EXDF" then .error .exdFileHeader
  else if data.length < 32 then .error .exdFileHeader
  else
    match readU32BE data 8 with
    | none => .error .exdFileHeader
    | some indexSize =>
      match parseExdRows data 32 (indexSize / 8) with
      | some rows => .ok rows
      | none => .error .exdFileHeader

/-- `ExdPageReader::lazy_exd_header` (ex.rs 449-457): read the EXD bytes,
then parse the header. -/
def lazyExdHeader (cfg : ExdConfig) : Except XivErr (List ExdRowPtr) :=
  match cfg.exdData with
  | .error e => .error e
  | .ok data => parseExdHeader data

/-- `ExdPageReader::read_next_subrow` (ex.rs lines 487-530).  A `Cursor`
seek to an absolute position always succeeds, so the ExdSeek arm cannot
fire; the generic `T::deserialize` is modelled by the `RowDesc` record,
which consumes no cell bytes and cannot fail.  The sub-row displacement
`(2 + data_offset) * subrow_index` is u16 arithmetic, hence the
`% 65536`. -/
def readNextSubrow (cfg : ExdConfig) (s : PageState) :
    Except XivErr (Option RowDesc) × PageState :=
  if s.done then (.ok none, s)
  else
    match lazyExdHeader cfg with
    | .error e => (.error e, s)
    | .ok rows =>
      match rows[s.rowIndex]? with
      | none => (.ok none, s)
      | some ptr =>
        if s.subrowCount ≤ s.subrowIndex then (.ok none, s)
        else
          let subrowOffset : Nat :=
            match cfg.exh.variant with
            | .normal => 0
            | .subRows => ((2 + cfg.exh.dataOffset) * s.subrowIndex) % 65536
          let pos := ptr.offset + 6 + subrowOffset
          match cfg.exdData with
          | .error e => (.error e, s)
          | .ok data =>
            match cfg.exh.variant with
            | .normal =>
              (.ok (some ⟨ptr.id, none, pos⟩), { s with subrowIndex := s.subrowIndex + 1 })
            | .subRows =>
              match readU16BE data pos with
              | none => (.error .exdSubRowHeader, s)
              | some subid =>
                (.ok (some ⟨ptr.id, some subid, pos + 2⟩),
                 { s with subrowIndex := s.subrowIndex + 1 })

/-- `ExdPageReader::read_next_row` (ex.rs lines 459-485): reread the row
header `(size: u32 BE, subrow_count: u16 BE)` at the current pointer,
store `subrow_count`, delegate to `read_next_subrow`, and advance the
pointer only once `subrow_index` has reached `subrow_count`. -/
def readNextRow (cfg : ExdConfig) (s : PageState) :
    Except XivErr (Option RowDesc) × PageState :=
  if s.done then (.ok none, s)
  else
    match lazyExdHeader cfg with
    | .error e => (.error e, s)
    | .ok rows =>
      match rows[s.rowIndex]? with
      | some ptr =>
        match cfg.exdData with
        | .error e => (.error e, s)
        | .ok data =>
          match readU32BE data ptr.offset with
          | none => (.error .exdRowHeader, s)
          | some _size =>
            match readU16BE data (ptr.offset + 4) with
            | none => (.error .exdRowHeader, s)
            | some cnt =>
              match readNextSubrow cfg { s with subrowCount := cnt } with
              | (.error e, s2) => (.error e, s2)
              | (.ok row, s2) =>
                if s2.subrowCount ≤ s2.subrowIndex then
                  (.ok row, { s2 with rowIndex := s2.rowIndex + 1,
                                      subrowIndex := 0, subrowCount := 0 })
                else (.ok row, s2)
      | none => (.ok none, { s with done := true })

/-- `Iterator::next` for ExdPageReader (ex.rs 550-552):
`read_next_row().transpose()`. -/
def pageNext (cfg : ExdConfig) (s : PageState) :
    Option (Except XivErr RowDesc) × PageState :=
  match readNextRow cfg s with
  | (.ok none, s2) => (none, s2)
  | (.ok (some r), s2) => (some (.ok r), s2)
  | (.error e, s2) => (some (.error e), s2)

/-- `Iterator::size_hint` for ExdPageReader (ex.rs 539-548):
`remaining_rows = exh.row_count as usize - row_index` (usize arithmetic,
wrapping modulo 2^64 on underflow), then `[r, r]` for Normal and
`[r, r.checked_mul(65535)]` for SubRows. -/
def pageSizeHint (cfg : ExdConfig) (s : PageState) : Nat × Option Nat :=
  let remaining := (18446744073709551616 + cfg.exh.rowCount - s.rowIndex) % 18446744073709551616
  match cfg.exh.variant with
  | .normal => (remaining, some remaining)
  | .subRows =>
    (remaining,
     if remaining * 65535 < 18446744073709551616 then some (remaining * 65535) else none)

/-- The page-reader state after `k` calls to `next`. -/
def statesAfter (cfg : ExdConfig) : Nat → PageState
  | 0 => PageState.init
  | k + 1 => (pageNext cfg (statesAfter cfg k)).2

/-- The item produced by the `(k+1)`-st call to `next` (0-indexed). -/
def yieldAt (cfg : ExdConfig) (k : Nat) : Option (Except XivErr RowDesc) :=
  (pageNext cfg (statesAfter cfg k)).1

/-- Bytewise ASCII lowering; `str::to_lowercase` (used by `read_exh` and
`read_exd`, ex.rs lines 558 and 576) acts exactly like this on ASCII
input. -/
def asciiLowerByte (b : Nat) : Nat :=
  if 65 ≤ b ∧ b ≤ 90 then b + 32 else b

def toLowercase (s : List Nat) : List Nat :=
  s.map asciiLowerByte

/-- Decimal rendering of a page start id, as `format!` does. -/
def natDecimalBytes (n : Nat) : List Nat :=
  strBytes (toString n)

/-- The lookup path `read_exh` constructs (ex.rs 557-559):
`exd/<lowercased base>.exh`. -/
def exhPath (basePath : List Nat) : List Nat :=
  strBytes "exd/" ++ toLowercase basePath ++ strBytes ".exh"

/-- The page path `read_exd` constructs (ex.rs 576-589):
`exd/<lowercased base>_<start_id><locale suffix>.exd`. -/
def exdPagePath (basePath : List Nat) (startId : Nat) (localeSuffix : List Nat) : List Nat :=
  strBytes "exd/" ++ toLowercase basePath ++ strBytes "_" ++ natDecimalBytes startId
    ++ localeSuffix ++ strBytes ".exd"

/-- A minimal EXD file: one row pointer (id 7, offset 40) whose row header
carries subrow count `n`; the 32-byte file header declares an 8-byte
pointer table. -/
def exdBytesN (n : Nat) : List Nat :=
  strBytes "EXDF"
    ++ [0, 0, 0, 0, 0, 0, 0, 8, 0, 0, 0, 0, 0, 0, 0, 0, 0, 0, 0, 0, 0, 0, 0, 0, 0, 0, 0, 0]
    ++ [0, 0, 0, 7, 0, 0, 0, 40]
    ++ [0, 0, 0, 0]
    ++ [n / 256 % 256, n % 256]

/-- Normal-variant page over `exdBytesN n`. -/
def exdCfgN (n : Nat) : ExdConfig :=
  ⟨⟨4, .normal, 1, []⟩, .ok (exdBytesN n)⟩

/-- A page whose `read_plain` succeeded but whose bytes do not start with
the EXDF magic, so every header parse fails. -/
def exdCfgBadMagic : ExdConfig :=
  ⟨⟨4, .normal, 1, []⟩, .ok [0, 0, 0, 0]⟩

/-- A SubRows EXD file truncated right before its first sub-id: one row
pointer (id 9, offset 40), row header size 0 and subrow count 1, and the
data ends at byte 46 where the u16 sub-id would be read. -/
def exdBytesSubTrunc : List Nat :=
  strBytes "EXDF"
    ++ [0, 0, 0, 0, 0, 0, 0, 8, 0, 0, 0, 0, 0, 0, 0, 0, 0, 0, 0, 0, 0, 0, 0, 0, 0, 0, 0, 0]
    ++ [0, 0, 0, 9, 0, 0, 0, 40]
    ++ [0, 0, 0, 0]
    ++ [0, 1]

/-- SubRows-variant page over `exdBytesSubTrunc`: the sub-id read fails
with the subrow-header error after the row header has already overwritten
`subrow_count`. -/
def exdCfgSubTrunc : ExdConfig :=
  ⟨⟨4, .subRows, 1, []⟩, .ok exdBytesSubTrunc⟩

/-- A two-pointer Normal EXD file: ids 1 and 2 at offsets 48 and 54, both
rows with subrow count 1. -/
def exdBytes2 : List Nat :=
  strBytes "EXDF"
    ++ [0, 0, 0, 0, 0, 0, 0, 16, 0, 0, 0, 0, 0, 0, 0, 0, 0, 0, 0, 0, 0, 0, 0, 0, 0, 0, 0, 0]
    ++ [0, 0, 0, 1, 0, 0, 0, 48]
    ++ [0, 0, 0, 2, 0, 0, 0, 54]
    ++ [0, 0, 0, 0, 0, 1]
    ++ [0, 0, 0, 0, 0, 1]

/-- `exdBytes2` under an EXH declaring five total rows (a multi-page
sheet's count). -/
def exdCfgFive : ExdConfig :=
  ⟨⟨4, .normal, 5, []⟩, .ok exdBytes2⟩

/-- `exdBytes2` under an EXH whose declared row count matches the page's
pointer count. -/
def exdCfgMatched : ExdConfig :=
  ⟨⟨4, .normal, 2, []⟩, .ok exdBytes2⟩

/-- A block whose payload is stored uncompressed (size_compressed 40000 is
at or above the 32000 threshold) and whose size_uncompressed is 112, so
that 16 + payload is exactly one 128-byte frame. -/
def blockBytesAligned : List Nat :=
  [16, 0, 0, 0, 0, 0, 0, 0, 64, 156, 0, 0, 112, 0, 0, 0] ++ List.replicate 112 0

/-- JAMCRC hash of the one-byte path "a", used by the index witness. -/
def wHash : Nat := jamcrc (strBytes "a")

/-- A minimal well-formed .index2 file: magic, header offset 16 at byte
0x0C, entries offset 32 and total byte count 8 at header offset + 8, and a
single entry (hash of "a", location 0x10). -/
def wIndexBytes : List Nat :=
  strBytes "SqPack" ++ [0, 0]
    ++ [0, 0, 0, 0]
    ++ [16, 0, 0, 0]
    ++ [0, 0, 0, 0, 0, 0, 0, 0]
    ++ [32, 0, 0, 0]
    ++ [8, 0, 0, 0]
    ++ [wHash % 256, wHash / 256 % 256, wHash / 65536 % 256, wHash / 16777216 % 256]
    ++ [16, 0, 0, 0]

/-- C1 (code_bug): the spec requires the block reader to leave the input
immediately after the payload when `(16 + payload) % 128 = 0`, consuming
padding only when the remainder is nonzero.  For an uncompressed block of
payload length 112 starting at 0, the payload ends at 128 and
`(16 + 112) % 128 = 0`, yet `read_block` seeks `128 - 0` further and
finishes at 256: the padding skip lacks an outer `% 128`. -/
theorem c1_block_padding_eval :
    readBlockFinalPos blockBytesAligned 0 = .ok 256 ∧ (16 + 112) % 128 = 0 ∧
      (Except.ok 256 : Except XivErr Nat) ≠ .ok 128 := by decide

/-- C2 (code_bug): the claim (and the spec) decode PackedBoolK as the test
of bit K, i.e. `byte & (1 << K) != 0`.  The source masks PackedBool2 with
the literal 3, so for byte 0x01 it returns true although bit 2 of 0x01 is
clear (`1 &&& (1 <<< 2) = 0`). -/
theorem c2_packedbool_mask_eval :
    packedBoolDecode 2 1 = true ∧ (1 : Nat) &&& (1 <<< 2) = 0 := by decide

/-- C3 counterexample: under the Normal variant, the single row pointer of
`exdCfgN 2` (id 7, offset 40, subrow_count field 2) yields a row on each
of the first two `next` calls, and the pointer of `exdCfgN 0`
(subrow_count field 0) yields none at all — not exactly one row
regardless of `subrow_count` as the claim states. -/
theorem c3_counterexample :
    yieldAt (exdCfgN 2) 0 = some (.ok ⟨7, none, 46⟩) ∧
    yieldAt (exdCfgN 2) 1 = some (.ok ⟨7, none, 46⟩) ∧
    yieldAt (exdCfgN 0) 0 = none := by decide

/-- C4 counterexample: for packed location 0x80000008 the untruncated
decode `(loc & ~0x7) << 3` is 0x400000040, but `Index2::load` computes the
shift on a u32 and stores offset 64, which is not a multiple of 128
either. -/
theorem c4_counterexample :
    (decodeLocation 0x80000008).offset = 64 ∧
    (0x80000008 &&& 0xFFFFFFF8 : Nat) <<< 3 = 0x400000040 ∧
    ¬ (128 ∣ (decodeLocation 0x80000008).offset) := by decide

/-- C5 counterexample: on a page whose bytes lack the EXDF magic, `next`
yields an error item, and the following call yields the same error item
again instead of the terminator `none` claimed. -/
theorem c5_counterexample :
    yieldAt exdCfgBadMagic 0 = some (.error .exdFileHeader) ∧
    yieldAt exdCfgBadMagic 1 = some (.error .exdFileHeader) := by decide

/-- C6 counterexample: a bare known category ("exd") and a category
followed by ex1 with no third segment ("sound/ex1") make
`from_inner_path` fail with the inner-path error; the claim says both
succeed with the missing pieces defaulted to zero. -/
theorem c6_counterexample :
    PackId.fromInnerPath (strBytes "exd") = .error .packIdInnerPath ∧
    PackId.fromInnerPath (strBytes "sound/ex1") = .error .packIdInnerPath := by decide

/-- C6 amended: for every known category, a path with fewer segments than
`from_inner_path` inspects (the bare category, or category/ex1) fails with
the inner-path error, while the defaults to zero apply only when the
segment is present but does not match the expansion or patch pattern. -/
theorem c6_defaults_only_on_mismatch :
    (categoryList.all fun pr =>
      decide (PackId.fromInnerPath pr.1 = .error .packIdInnerPath) &&
      decide (PackId.fromInnerPath (pr.1 ++ strBytes "/ex1") = .error .packIdInnerPath) &&
      decide (PackId.fromInnerPath (pr.1 ++ strBytes "/file") = .ok ⟨pr.2, 0, 0⟩) &&
      decide (PackId.fromInnerPath (pr.1 ++ strBytes "/ex1/file") = .ok ⟨pr.2, 1, 0⟩) &&
      decide (PackId.fromInnerPath (pr.1 ++ strBytes "/ex1/1f_file") = .ok ⟨pr.2, 1, 0x1f⟩))
    = true := by decide

/-- C7 counterexample: the two-pointer page of `exdCfgFive` belongs to a
sheet whose EXH declares 5 total rows; after both rows are yielded the
third call returns the terminator, yet the size hint still reports
`[3, 3]` rather than `[0, 0]` for the 0 rows remaining. -/
theorem c7_counterexample :
    yieldAt exdCfgFive 0 = some (.ok ⟨1, none, 54⟩) ∧
    yieldAt exdCfgFive 1 = some (.ok ⟨2, none, 60⟩) ∧
    yieldAt exdCfgFive 2 = none ∧
    pageSizeHint exdCfgFive (statesAfter exdCfgFive 2) = (3, some 3) := by decide

/-- Looking a key up in the insertion list only ever returns an entry the
list holds. -/
theorem lookup_mem {l : List (Nat × IndexEntry)} {k : Nat} {e : IndexEntry}
    (h : List.lookup k l = some e) : (k, e) ∈ l := by
  induction l with
  | nil => simp [List.lookup] at h
  | cons p t ih =>
    obtain ⟨k0, e0⟩ := p
    rw [List.lookup] at h
    by_cases hk : k = k0
    · subst hk
      rw [beq_self_eq_true] at h
      have h2 : some e0 = some e := h
      obtain rfl : e0 = e := by injection h2
      exact List.mem_cons_self _ _
    · have hbeq : (k == k0) = false := beq_false_of_ne hk
      rw [hbeq] at h
      have h2 : List.lookup k t = some e := h
      exact List.mem_cons_of_mem _ (ih h2)

theorem decodeLocation_datnum_le (loc : Nat) : (decodeLocation loc).datnum ≤ 3 := by
  show (loc &&& 0x00000007) >>> 1 ≤ 3
  rw [Nat.shiftRight_eq_div_pow]
  have h : loc &&& 0x00000007 ≤ 7 := Nat.and_le_right
  omega

theorem decodeLocation_offset_eq (loc : Nat) :
    (decodeLocation loc).offset = ((loc &&& 0xFFFFFFF8) * 8) % 4294967296 := by
  show ((loc &&& 0xFFFFFFF8) <<< 3) % 4294967296 = _
  rw [Nat.shiftLeft_eq]

theorem eight_dvd_and_mask (loc : Nat) : 8 ∣ (loc &&& 0xFFFFFFF8) := by
  apply Nat.dvd_of_mod_eq_zero
  have h1 : (loc &&& 0xFFFFFFF8) &&& 7 = (loc &&& 0xFFFFFFF8) % 8 :=
    Nat.and_pow_two_sub_one_eq_mod _ 3
  have h2 : loc &&& 0xFFFFFFF8 &&& 7 = loc &&& (0xFFFFFFF8 &&& 7) := Nat.and_assoc _ _ _
  have h3 : (0xFFFFFFF8 &&& 7 : Nat) = 0 := by decide
  rw [← h1, h2, h3, Nat.and_zero]

theorem decodeLocation_offset_dvd (loc : Nat) : 64 ∣ (decodeLocation loc).offset := by
  rw [decodeLocation_offset_eq]
  rw [Nat.dvd_mod_iff (by norm_num : (64 : Nat) ∣ 4294967296)]
  obtain ⟨c, hc⟩ := eight_dvd_and_mask loc
  exact ⟨c, by omega⟩

theorem decodeLocation_offset_lt (loc : Nat) : (decodeLocation loc).offset < 4294967296 :=
  Nat.mod_lt _ (by norm_num)

/-- C4 amended: the index loader decodes `datnum = (loc & 0x7) >> 1` and
`offset = ((loc & ~0x7) << 3) mod 2^32` (the shift happens in u32, so high
bits are truncated before the widening to u64); every decoded offset is a
multiple of 64 and at most 2^32 - 64. -/
theorem c4_offset_truncated_64aligned (loc : Nat) :
    (decodeLocation loc).datnum = (loc &&& 0x7) >>> 1 ∧
    (decodeLocation loc).offset = ((loc &&& 0xFFFFFFF8) * 8) % 4294967296 ∧
    64 ∣ (decodeLocation loc).offset ∧
    (decodeLocation loc).offset ≤ 4294967296 - 64 := by
  refine ⟨rfl, decodeLocation_offset_eq loc, decodeLocation_offset_dvd loc, ?_⟩
  obtain ⟨c, hc⟩ := decodeLocation_offset_dvd loc
  have hlt := decodeLocation_offset_lt loc
  omega

/-- Every entry the reading loop returns satisfies the decode invariant,
provided the accumulator it starts from does. -/
theorem readIndexEntries_inv :
    ∀ (k : Nat) (bytes : List Nat) (pos : Nat) (acc idx : Index2),
      (∀ pr ∈ acc, pr.2.datnum ≤ 3 ∧ 64 ∣ pr.2.offset ∧ pr.2.offset < 4294967296) →
      readIndexEntries bytes pos k acc = .ok idx →
      ∀ pr ∈ idx, pr.2.datnum ≤ 3 ∧ 64 ∣ pr.2.offset ∧ pr.2.offset < 4294967296 := by
  intro k
  induction k with
  | zero =>
    intro bytes pos acc idx hacc h
    rw [readIndexEntries] at h
    cases h
    exact hacc
  | succ n ih =>
    intro bytes pos acc idx hacc h
    rw [readIndexEntries] at h
    split at h
    · exact absurd h (by simp)
    · split at h
      · exact absurd h (by simp)
      · apply ih _ _ _ _ _ h
        intro pr hpr
        rcases List.mem_cons.mp hpr with hpr | hpr
        · subst hpr
          exact ⟨decodeLocation_datnum_le _, decodeLocation_offset_dvd _,
                 decodeLocation_offset_lt _⟩
        · exact hacc pr hpr

/-- C9: for any input bytes, every entry `Index2::load` stores in the map
satisfies `datnum ≤ 3`, `64 ∣ offset` and `offset < 2^32`, and hence so
does every entry `Index2::find` returns. -/
theorem c9_index_entry_invariant (bytes : List Nat) (idx : Index2)
    (h : Index2.load bytes = .ok idx) :
    (∀ pr ∈ idx, pr.2.datnum ≤ 3 ∧ 64 ∣ pr.2.offset ∧ pr.2.offset < 4294967296) ∧
    (∀ (path : List Nat) (e : IndexEntry), Index2.find idx path = some e →
      e.datnum ≤ 3 ∧ 64 ∣ e.offset ∧ e.offset < 4294967296) := by
  have hmem : ∀ pr ∈ idx, pr.2.datnum ≤ 3 ∧ 64 ∣ pr.2.offset ∧ pr.2.offset < 4294967296 := by
    rw [Index2.load] at h
    split at h
    · exact absurd h (by simp)
    · split at h
      · exact absurd h (by simp)
      · split at h
        · exact absurd h (by simp)
        · split at h
          · exact absurd h (by simp)
          · exact readIndexEntries_inv _ _ _ _ _ (by simp) h
  exact ⟨hmem, fun path e hf => hmem _ (lookup_mem hf)⟩

/-- Witness for C9: a concrete one-entry index file loads, `find` on the
path "a" returns the stored entry, and the entry satisfies the
invariant. -/
theorem c9_index_entry_invariant_witness :
    Index2.load wIndexBytes = .ok [(wHash, ⟨0, 128⟩)] ∧
    Index2.find [(wHash, ⟨0, 128⟩)] (strBytes "a") = some ⟨0, 128⟩ ∧
    ((0 : Nat) ≤ 3 ∧ 64 ∣ (128 : Nat) ∧ (128 : Nat) < 4294967296) :=
  ⟨by decide, by decide,
   (c9_index_entry_invariant wIndexBytes [(wHash, ⟨0, 128⟩)] (by decide)).2
     (strBytes "a") ⟨0, 128⟩ (by decide)⟩

/-- C3 amended: for a Normal-variant sheet, a `next` call at a live row
pointer whose header field `subrow_count` reads as `n` yields the row
(id = pointer id, no sub-id, cell region at offset + 6) precisely while
fewer than `n` subrow steps have been taken for that pointer, and the
reader advances to the next pointer only once `n` steps are reached: the
pointer therefore yields `n` rows in total — exactly one only when
`n = 1`, and none at all when `n = 0`. -/
theorem c3_normal_yields_per_subrow_count
    (cfg : ExdConfig) (s : PageState) (rows : List ExdRowPtr) (ptr : ExdRowPtr)
    (data : List Nat) (n sz : Nat)
    (hv : cfg.exh.variant = .normal)
    (hd : s.done = false)
    (hdata : cfg.exdData = .ok data)
    (hhdr : lazyExdHeader cfg = .ok rows)
    (hptr : rows[s.rowIndex]? = some ptr)
    (hsz : readU32BE data ptr.offset = some sz)
    (hn : readU16BE data (ptr.offset + 4) = some n) :
    pageNext cfg s =
      ((if s.subrowIndex < n then some (.ok ⟨ptr.id, none, ptr.offset + 6⟩) else none),
       (if n ≤ s.subrowIndex + 1 then ⟨s.rowIndex + 1, 0, 0, false⟩
        else ⟨s.rowIndex, s.subrowIndex + 1, n, false⟩)) := by
  obtain ⟨ri, si, sc, dn⟩ := s
  simp only at hd hptr
  subst hd
  simp only [pageNext, readNextRow, readNextSubrow, hv, hdata, hhdr, hptr, hsz, hn,
    Bool.false_eq_true, if_false]
  by_cases h1 : n ≤ si
  · have h2 : ¬ si < n := by omega
    have h3 : n ≤ si + 1 := by omega
    simp only [h1, if_true, h2, if_false, h3]
  · have h2 : si < n := by omega
    simp only [h1, if_false, h2, if_true, Nat.add_zero]
    by_cases h3 : n ≤ si + 1
    · simp only [h3, if_true]
    · simp only [h3, if_false]

/-- Witness for C3: on the concrete page `exdCfgN 2` (one pointer, header
subrow count 2) the first call from the initial state yields the row and
keeps the reader on pointer 0 with one subrow step taken. -/
theorem c3_normal_yields_per_subrow_count_witness :
    pageNext (exdCfgN 2) PageState.init = (some (.ok ⟨7, none, 46⟩), ⟨0, 1, 2, false⟩) :=
  (c3_normal_yields_per_subrow_count (exdCfgN 2) PageState.init [⟨7, 40⟩] ⟨7, 40⟩
    (exdBytesN 2) 2 0 rfl rfl rfl (by decide) (by decide) (by decide) (by decide)).trans
    (by decide)

/-- C5 amended: whenever a call to `next` yields an error item — any of
the EXD read, header parse, row-header read or subrow-header read failing
— the resulting state keeps `done` false and the same `row_index` and
`subrow_index` (at most `subrow_count` has been overwritten by the
re-read row header, on the subrow-header path), so the following call
repeats the same computation: it yields the same error item again, with
the state now a fixpoint — never the terminator. -/
theorem c5_error_item_repeats (cfg : ExdConfig) (s : PageState) (e : XivErr)
    (s2 : PageState) (hd : s.done = false)
    (h : pageNext cfg s = (some (.error e), s2)) :
    s2.done = false ∧ s2.rowIndex = s.rowIndex ∧ s2.subrowIndex = s.subrowIndex ∧
    pageNext cfg s2 = (some (.error e), s2) := by
  obtain ⟨ri, si, sc, dn⟩ := s
  simp only at hd
  subst hd
  cases hhdr : lazyExdHeader cfg with
  | error eh =>
    have h1 : pageNext cfg ⟨ri, si, sc, false⟩ = (some (.error eh), ⟨ri, si, sc, false⟩) := by
      simp only [pageNext, readNextRow, hhdr, Bool.false_eq_true, if_false]
    rw [h1] at h
    simp only [Prod.mk.injEq, Option.some.injEq, Except.error.injEq] at h
    obtain ⟨rfl, rfl⟩ := h
    exact ⟨rfl, rfl, rfl, h1⟩
  | ok rows =>
    cases hptr : rows[ri]? with
    | none =>
      have h1 : pageNext cfg ⟨ri, si, sc, false⟩ = (none, ⟨ri, si, sc, true⟩) := by
        simp only [pageNext, readNextRow, hhdr, hptr, Bool.false_eq_true, if_false]
      rw [h1] at h
      exact absurd h (by simp)
    | some ptr =>
      cases hdata : cfg.exdData with
      | error ed => simp [lazyExdHeader, hdata] at hhdr
      | ok data =>
        cases hsz : readU32BE data ptr.offset with
        | none =>
          have h1 : pageNext cfg ⟨ri, si, sc, false⟩ =
              (some (.error .exdRowHeader), ⟨ri, si, sc, false⟩) := by
            simp only [pageNext, readNextRow, hhdr, hptr, hdata, hsz,
              Bool.false_eq_true, if_false]
          rw [h1] at h
          simp only [Prod.mk.injEq, Option.some.injEq, Except.error.injEq] at h
          obtain ⟨rfl, rfl⟩ := h
          exact ⟨rfl, rfl, rfl, h1⟩
        | some sz =>
          cases hn : readU16BE data (ptr.offset + 4) with
          | none =>
            have h1 : pageNext cfg ⟨ri, si, sc, false⟩ =
                (some (.error .exdRowHeader), ⟨ri, si, sc, false⟩) := by
              simp only [pageNext, readNextRow, hhdr, hptr, hdata, hsz, hn,
                Bool.false_eq_true, if_false]
            rw [h1] at h
            simp only [Prod.mk.injEq, Option.some.injEq, Except.error.injEq] at h
            obtain ⟨rfl, rfl⟩ := h
            exact ⟨rfl, rfl, rfl, h1⟩
          | some n =>
            by_cases hle : n ≤ si
            · have h1 : pageNext cfg ⟨ri, si, sc, false⟩ = (none, ⟨ri + 1, 0, 0, false⟩) := by
                simp [pageNext, readNextRow, readNextSubrow, hhdr, hptr, hdata, hsz, hn, hle]
              rw [h1] at h
              exact absurd h (by simp)
            · cases hv : cfg.exh.variant with
              | normal =>
                by_cases hadv : n ≤ si + 1
                · have h1 : pageNext cfg ⟨ri, si, sc, false⟩ =
                      (some (.ok ⟨ptr.id, none, ptr.offset + 6⟩), ⟨ri + 1, 0, 0, false⟩) := by
                    simp [pageNext, readNextRow, readNextSubrow, hhdr, hptr, hdata, hsz, hn,
                      hv, hle, hadv]
                  rw [h1] at h
                  exact absurd h (by simp)
                · have h1 : pageNext cfg ⟨ri, si, sc, false⟩ =
                      (some (.ok ⟨ptr.id, none, ptr.offset + 6⟩), ⟨ri, si + 1, n, false⟩) := by
                    simp [pageNext, readNextRow, readNextSubrow, hhdr, hptr, hdata, hsz, hn,
                      hv, hle, hadv]
                  rw [h1] at h
                  exact absurd h (by simp)
              | subRows =>
                cases hsub : readU16BE data
                    (ptr.offset + 6 + ((2 + cfg.exh.dataOffset) * si) % 65536) with
                | none =>
                  have h1 : pageNext cfg ⟨ri, si, sc, false⟩ =
                      (some (.error .exdSubRowHeader), ⟨ri, si, n, false⟩) := by
                    simp [pageNext, readNextRow, readNextSubrow, hhdr, hptr, hdata, hsz, hn,
                      hv, hle, hsub]
                  rw [h1] at h
                  simp only [Prod.mk.injEq, Option.some.injEq, Except.error.injEq] at h
                  obtain ⟨rfl, rfl⟩ := h
                  refine ⟨rfl, rfl, rfl, ?_⟩
                  simp [pageNext, readNextRow, readNextSubrow, hhdr, hptr, hdata, hsz, hn,
                    hv, hle, hsub]
                | some subid =>
                  by_cases hadv : n ≤ si + 1
                  · have h1 : pageNext cfg ⟨ri, si, sc, false⟩ =
                        (some (.ok ⟨ptr.id, some subid,
                          ptr.offset + 6 + ((2 + cfg.exh.dataOffset) * si) % 65536 + 2⟩),
                         ⟨ri + 1, 0, 0, false⟩) := by
                      simp [pageNext, readNextRow, readNextSubrow, hhdr, hptr, hdata, hsz,
                        hn, hv, hle, hadv, hsub]
                    rw [h1] at h
                    exact absurd h (by simp)
                  · have h1 : pageNext cfg ⟨ri, si, sc, false⟩ =
                        (some (.ok ⟨ptr.id, some subid,
                          ptr.offset + 6 + ((2 + cfg.exh.dataOffset) * si) % 65536 + 2⟩),
                         ⟨ri, si + 1, n, false⟩) := by
                      simp [pageNext, readNextRow, readNextSubrow, hhdr, hptr, hdata, hsz,
                        hn, hv, hle, hadv, hsub]
                    rw [h1] at h
                    exact absurd h (by simp)

/-- Witness for C5: on the truncated SubRows page the first call yields
the subrow-header error while overwriting `subrow_count` with the row
header value 1, and the following call yields the same error item again
from that state. -/
theorem c5_error_item_repeats_witness :
    pageNext exdCfgSubTrunc PageState.init =
      (some (.error .exdSubRowHeader), ⟨0, 0, 1, false⟩) ∧
    pageNext exdCfgSubTrunc ⟨0, 0, 1, false⟩ =
      (some (.error .exdSubRowHeader), ⟨0, 0, 1, false⟩) :=
  ⟨by decide,
   (c5_error_item_repeats exdCfgSubTrunc PageState.init .exdSubRowHeader ⟨0, 0, 1, false⟩
      rfl (by decide)).2.2.2⟩

/-- Once `done` is set, `next` returns the terminator and leaves the state
fixed. -/
theorem pageNext_done (cfg : ExdConfig) (s : PageState) (h : s.done = true) :
    pageNext cfg s = (none, s) := by
  obtain ⟨ri, si, sc, dn⟩ := s
  simp only at h
  subst h
  simp only [pageNext, readNextRow, if_true]

/-- From the fourth call on, the five-row-count page reader sits in the
finished state (pointer index 2, done). -/
theorem statesAfter_exdCfgFive (j : Nat) :
    statesAfter exdCfgFive (3 + j) = ⟨2, 0, 0, true⟩ := by
  induction j with
  | zero => decide
  | succ m ih =>
    have h : 3 + (m + 1) = (3 + m) + 1 := by omega
    rw [h, statesAfter, ih, pageNext_done _ _ rfl]

/-- The matched-row-count page reader follows the same trajectory. -/
theorem statesAfter_exdCfgMatched (j : Nat) :
    statesAfter exdCfgMatched (3 + j) = ⟨2, 0, 0, true⟩ := by
  induction j with
  | zero => decide
  | succ m ih =>
    have h : 3 + (m + 1) = (3 + m) + 1 := by omega
    rw [h, statesAfter, ih, pageNext_done _ _ rfl]

/-- C7 amended: the size hint is `[R - i, R - i]` (Normal variant) where
`R` is the EXH-declared total row count of the sheet and `i` the reader
index into this page's pointer table — not the number of rows this
iterator has yet to yield.  On the two-pointer page the two quantities
agree at every step when the EXH declares 2 rows, while with `R = 5` the
hint stays at `[3, 3]` forever after the page is exhausted. -/
theorem c7_size_hint_row_count_based (k : Nat) :
    pageSizeHint exdCfgFive (statesAfter exdCfgFive k) = (5 - min k 2, some (5 - min k 2)) ∧
    pageSizeHint exdCfgMatched (statesAfter exdCfgMatched k) =
      (2 - min k 2, some (2 - min k 2)) ∧
    yieldAt exdCfgMatched k =
      (if k < 2 then some (.ok ⟨k + 1, none, 54 + 6 * k⟩) else none) := by
  match k with
  | 0 => exact ⟨by decide, by decide, by decide⟩
  | 1 => exact ⟨by decide, by decide, by decide⟩
  | 2 => exact ⟨by decide, by decide, by decide⟩
  | (j + 3) =>
    have h5 : statesAfter exdCfgFive (j + 3) = ⟨2, 0, 0, true⟩ := by
      rw [show j + 3 = 3 + j by omega]
      exact statesAfter_exdCfgFive j
    have hm : statesAfter exdCfgMatched (j + 3) = ⟨2, 0, 0, true⟩ := by
      rw [show j + 3 = 3 + j by omega]
      exact statesAfter_exdCfgMatched j
    have hmin : min (j + 3) 2 = 2 := by omega
    have hlt : ¬ (j + 3 < 2) := by omega
    refine ⟨?_, ?_, ?_⟩
    · rw [h5, hmin]
      decide
    · rw [hm, hmin]
      decide
    · rw [yieldAt, hm, pageNext_done _ _ rfl, if_neg hlt]

/-- Formatting a nibble with \x7b:02x\x7d always produces a lowercase hex
digit, and parsing it in base 16 recovers the nibble. -/
theorem hexDigByte_ok : ∀ d < 16, isHexLowerByte (hexDigByte d) = true ∧
    hexByteVal (hexDigByte d) = d := by decide

/-- C8: for every u8 triple, parsing the file-name component of
`to_index2_path()` with `from_pack_filename` succeeds and returns the same
PackId. -/
theorem c8_packid_roundtrip (c e p : Nat) (hc : c < 256) (he : e < 256) (hp : p < 256) :
    PackId.fromPackFilename (PackId.index2FileName ⟨c, e, p⟩) = .ok ⟨c, e, p⟩ := by
  have h1 := hexDigByte_ok (c / 16) (by omega)
  have h2 := hexDigByte_ok (c % 16) (by omega)
  have h3 := hexDigByte_ok (e / 16) (by omega)
  have h4 := hexDigByte_ok (e % 16) (by omega)
  have h5 := hexDigByte_ok (p / 16) (by omega)
  have h6 := hexDigByte_ok (p % 16) (by omega)
  have htail : strBytes ".win32.index2" =
      [46, 119, 105, 110, 51, 50, 46, 105, 110, 100, 101, 120, 50] := rfl
  simp only [PackId.index2FileName, hex2, htail, List.cons_append, List.nil_append,
    PackId.fromPackFilename, sqpackSuffixMatch, extMatch, h1.1, h2.1, h3.1, h4.1, h5.1, h6.1,
    Bool.and_true, Bool.and_self, if_true]
  rw [h1.2, h2.2, h3.2, h4.2, h5.2, h6.2]
  have hc2 : 16 * (c / 16) + c % 16 = c := by omega
  have he2 : 16 * (e / 16) + e % 16 = e := by omega
  have hp2 : 16 * (p / 16) + p % 16 = p := by omega
  rw [hc2, he2, hp2]

/-- Witness for C8: the round trip at the concrete PackId (0x0a, 0, 0),
whose index2 file name is 0a0000.win32.index2. -/
theorem c8_packid_roundtrip_witness :
    PackId.fromPackFilename (PackId.index2FileName ⟨0x0a, 0, 0⟩) = .ok ⟨0x0a, 0, 0⟩ :=
  c8_packid_roundtrip 0x0a 0 0 (by decide) (by decide) (by decide)

/-- ASCII lowering is idempotent: lowering an already-lowered byte changes
nothing. -/
theorem asciiLowerByte_idem (b : Nat) :
    asciiLowerByte (asciiLowerByte b) = asciiLowerByte b := by
  unfold asciiLowerByte
  split_ifs <;> omega

/-- C10: `read_exh` and `read_exd` lowercase the sheet base path before
building any lookup path, so two ASCII case-variants of a base path
produce identical exh and exd page paths; and the lowered base path that
`read_exd` forwards to `read_exh` produces the same exh path as the
original. -/
theorem c10_case_insensitive_paths (s t : List Nat) (h : toLowercase s = toLowercase t) :
    exhPath s = exhPath t ∧
    (∀ (n : Nat) (suf : List Nat), exdPagePath s n suf = exdPagePath t n suf) ∧
    exhPath (toLowercase s) = exhPath s := by
  have hidem : toLowercase (toLowercase s) = toLowercase s := by
    simp only [toLowercase, List.map_map, Function.comp_def, asciiLowerByte_idem]
  refine ⟨?_, fun n suf => ?_, ?_⟩
  · simp only [exhPath, h]
  · simp only [exdPagePath, h]
  · simp only [exhPath, hidem]

/-- Witness for C10: the case-variants "Race" and "rACE" produce the same
exh lookup path. -/
theorem c10_case_insensitive_paths_witness :
    exhPath (strBytes "Race") = exhPath (strBytes "rACE") :=
  (c10_case_insensitive_paths (strBytes "Race") (strBytes "rACE") (by decide)).1
